import Mathlib

/-!
Verification of the event-to-state reconciliation core of crewai-playground.

The Python sources are shallowly embedded as Lean functions:
Python dicts become association lists (`ainsert` overwrites the binding of an
existing key in place, as dict assignment does, and appends new keys at the
end, matching dict insertion order), dynamic Python values become `PyVal`,
handlers become pure functions from the pre-state of the module-level stores
to the post-state together with the list of WebSocket broadcasts they issue.
-/

namespace CrewaiPlayground

/-- A Python runtime value as far as the handlers inspect one:
`None`, a string, an integer, or a boolean. -/
inductive PyVal where
  | vnone
  | vstr (s : String)
  | vint (n : Int)
  | vbool (b : Bool)
deriving DecidableEq, Repr

/-- Python `str(v)`. -/
def pyStr : PyVal → String
  | .vnone => "None"
  | .vstr s => s
  | .vint n => toString n
  | .vbool b => if b then "True" else "False"

/-- Python falsiness of an optional string: `None` and `""` are falsy. -/
def pyFalsyOpt : Option String → Bool
  | Option.none => true
  | some s => s = ""

/-- Lookup in an association list (Python `d.get(k)` / `d[k]`). -/
def alookup {α : Type} (k : String) : List (String × α) → Option α
  | [] => Option.none
  | (k', v) :: rest => if k = k' then some v else alookup k rest

/-- Python `d[k] = v`: overwrite the binding in place if the key exists,
append it otherwise. -/
def ainsert {α : Type} (k : String) (v : α) : List (String × α) → List (String × α)
  | [] => [(k, v)]
  | (k', v') :: rest => if k = k' then (k, v) :: rest else (k', v') :: ainsert k v rest

/-- Python `del d[k]` (keys are unique in a dict, so removing the first
occurrence is exact). -/
def aremove {α : Type} (k : String) : List (String × α) → List (String × α)
  | [] => []
  | (k', v') :: rest => if k = k' then rest else (k', v') :: aremove k rest

/-! ## flow_event_listener.py : FlowWebSocketEventListener

State of one flow execution as kept in the module-level `flow_states` dict,
and the async handlers `_handle_flow_started`, `_handle_method_started`,
`_handle_method_finished`, `_handle_method_failed`, `_handle_flow_finished`.
A handler takes the relevant module-level stores and returns the new stores
together with the `broadcast_flow_update` calls it made. -/

/-- One entry of a flow state's `steps` list.  `outputs` is `Option PyVal`
because the Python dict key may be absent (failed-step entries are created
without it); its value may itself be `None` (`PyVal.vnone`). -/
structure FlowStep where
  id : String
  name : String
  status : String
  outputs : Option PyVal
  error : Option String
deriving DecidableEq, Repr

/-- A `flow_states` record.  `outputs` is absent until the flow finishes. -/
structure FlowState where
  id : String
  name : String
  status : String
  steps : List FlowStep
  outputs : Option String
  timestamp : Nat
deriving DecidableEq, Repr

/-- The module-level `flow_states` dict. -/
def FlowStore : Type := List (String × FlowState)

/-- `api_flow_id = reverse_flow_id_mapping.get(flow_id)`;
`broadcast_flow_id = api_flow_id if api_flow_id else flow_id`
(an empty-string mapping value is falsy in Python). -/
def resolveFlowId (revMap : List (String × String)) (flowId : String) : String :=
  match alookup flowId revMap with
  | some a => if a = "" then flowId else a
  | Option.none => flowId

/-- Result of a handler: the new `flow_states` and the broadcasts issued. -/
structure HandlerOut where
  states : List (String × FlowState)
  broadcasts : List (String × FlowState)
deriving Repr

/-- Result of `_handle_flow_started`, which also touches the two mapping
dicts imported from `flow_api`. -/
structure FlowStartedOut where
  fwdMap : List (String × String)
  revMap : List (String × String)
  states : List (String × FlowState)
  broadcasts : List (String × FlowState)
deriving Repr

/-- `_handle_flow_started`: resolve the broadcast ID (existing reverse
mapping, else pair with the first active API flow lacking a mapping, else the
internal ID itself), then unconditionally store a fresh `running` record
under the broadcast ID and broadcast it. -/
def handleFlowStarted (fwdMap revMap : List (String × String))
    (activeFlows : List String) (states : List (String × FlowState))
    (flowId flowName : String) (now : Nat) : FlowStartedOut :=
  let apiOpt : Option String :=
    match alookup flowId revMap with
    | some a => if a = "" then Option.none else some a
    | Option.none => Option.none
  let res : String × List (String × String) × List (String × String) :=
    match apiOpt with
    | some a => (a, fwdMap, revMap)
    | Option.none =>
      match activeFlows.find? (fun apiId => (alookup apiId fwdMap).isNone) with
      | some p => (p, ainsert p flowId fwdMap, ainsert flowId p revMap)
      | Option.none => (flowId, fwdMap, revMap)
  let bid := res.1
  let st : FlowState :=
    { id := bid, name := flowName, status := "running", steps := []
      outputs := Option.none, timestamp := now }
  { fwdMap := res.2.1, revMap := res.2.2
    states := ainsert bid st states, broadcasts := [(bid, st)] }

/-- The loop in `_handle_method_started`: mark the first step whose `id`
matches as `running` (then `break`). -/
def markFirstRunningById (stepId : String) : List FlowStep → List FlowStep
  | [] => []
  | s :: rest =>
    if s.id = stepId then { s with status := "running" } :: rest
    else s :: markFirstRunningById stepId rest

/-- `_handle_method_started`: warn-and-drop when the record is missing, else
mark the first matching step running or append a fresh running step
(created with an explicit `outputs: None` key). -/
def handleMethodStarted (revMap : List (String × String))
    (states : List (String × FlowState)) (flowId methodName : String)
    (now : Nat) : HandlerOut :=
  let bid := resolveFlowId revMap flowId
  match alookup bid states with
  | Option.none => { states := states, broadcasts := [] }
  | some st =>
    let steps' :=
      if st.steps.any (fun s => s.id = methodName) then
        markFirstRunningById methodName st.steps
      else
        st.steps ++ [{ id := methodName, name := methodName, status := "running"
                       outputs := some PyVal.vnone, error := Option.none }]
    let st' := { st with steps := steps', timestamp := now }
    { states := ainsert bid st' states, broadcasts := [(bid, st')] }

/-- The loop in `_handle_method_finished`: the first step whose `id` matches
(regardless of its current status) is set to `completed` with the event's
result attached (then `break`). -/
def completeFirstById (stepId : String) (out : PyVal) :
    List FlowStep → List FlowStep
  | [] => []
  | s :: rest =>
    if s.id = stepId then
      { s with status := "completed", outputs := some out } :: rest
    else s :: completeFirstById stepId out rest

/-- `_handle_method_finished`: warn-and-drop when the record is missing, else
complete the first matching step (or append an already-completed one). -/
def handleMethodFinished (revMap : List (String × String))
    (states : List (String × FlowState)) (flowId methodName : String)
    (eventResult : PyVal) (now : Nat) : HandlerOut :=
  let bid := resolveFlowId revMap flowId
  match alookup bid states with
  | Option.none => { states := states, broadcasts := [] }
  | some st =>
    let steps' :=
      if st.steps.any (fun s => s.id = methodName) then
        completeFirstById methodName eventResult st.steps
      else
        st.steps ++ [{ id := methodName, name := methodName
                       status := "completed", outputs := some eventResult
                       error := Option.none }]
    let st' := { st with steps := steps', timestamp := now }
    { states := ainsert bid st' states, broadcasts := [(bid, st')] }

/-- The loop in `_handle_method_failed`: the first step whose `id` matches is
set to `failed` with the error string attached (existing `outputs` kept). -/
def failFirstById (stepId : String) (err : String) :
    List FlowStep → List FlowStep
  | [] => []
  | s :: rest =>
    if s.id = stepId then
      { s with status := "failed", error := some err } :: rest
    else s :: failFirstById stepId err rest

/-- `_handle_method_failed`: note that unlike the other handlers this one
looks up `flow_states` by the raw `flow_id` without consulting
`reverse_flow_id_mapping`.  Appended failure entries carry no `outputs`
key. -/
def handleMethodFailed (states : List (String × FlowState))
    (flowId methodName err : String) (now : Nat) : HandlerOut :=
  match alookup flowId states with
  | Option.none => { states := states, broadcasts := [] }
  | some st =>
    let steps' :=
      if st.steps.any (fun s => s.id = methodName) then
        failFirstById methodName err st.steps
      else
        st.steps ++ [{ id := methodName, name := methodName, status := "failed"
                       outputs := Option.none, error := some err }]
    let st' := { st with steps := steps', timestamp := now }
    { states := ainsert flowId st' states, broadcasts := [(flowId, st')] }

/-- The priority list `result_fields` of `_handle_flow_finished`. -/
def resultFields : List String := ["result", "output", "outputs", "final_result"]

/-- The first loop of the extraction in `_handle_flow_finished`: walk the
priority fields in order and return `str(value)` of the first one that is
present in the state dict with a non-`None` value. -/
def firstFieldAux (sd : List (String × PyVal)) : List String → Option String
  | [] => Option.none
  | f :: rest =>
    match alookup f sd with
    | some v => if v = PyVal.vnone then firstFieldAux sd rest else some (pyStr v)
    | Option.none => firstFieldAux sd rest

def firstResultField (sd : List (String × PyVal)) : Option String :=
  firstFieldAux sd resultFields

/-- `system_fields` plus the `startswith("_")` exclusion used for the
whole-state fallback serialization. -/
def filteredStateDict (sd : List (String × PyVal)) : List (String × PyVal) :=
  sd.filter (fun kv =>
    !(["id", "_id", "__dict__", "__class__"].contains kv.1)
      && !(kv.1.startsWith "_"))

/-- A JSON rendering of a value, standing for `json.dumps`. -/
def jsonVal : PyVal → String
  | .vnone => "null"
  | .vstr s => "\"" ++ s ++ "\""
  | .vint n => toString n
  | .vbool b => if b then "true" else "false"

/-- `json.dumps(result_dict, indent=2)` for the filtered state dict
(rendered flat; only the fact that it deterministically serializes the
filtered dict matters to the handlers). -/
def jsonDumps (sd : List (String × PyVal)) : String :=
  "\x7b" ++
    String.intercalate ", "
      (sd.map (fun kv => "\"" ++ kv.1 ++ "\": " ++ jsonVal kv.2)) ++
  "\x7d"

/-- Lines 241-259 of `_handle_flow_finished`: try the priority fields, and if
that produced nothing truthy, serialize the filtered state dict when it is
non-empty. -/
def extractFromState (sd : List (String × PyVal)) : Option String :=
  let ot := firstResultField sd
  if pyFalsyOpt ot then
    let rd := filteredStateDict sd
    if rd.isEmpty then ot else some (jsonDumps rd)
  else ot

/-- The fallback message written when no result data is available. -/
def flowCompletedDefaultMsg : String :=
  "Flow completed successfully (no result data available)"

/-- The whole `output_text` computation of `_handle_flow_finished` followed
by the final `outputs` assignment: state extraction, then `event.result`
when still falsy, then the default message when still falsy.
`sourceState` is `some sd` exactly when the source is present, has a `state`
attribute and that state has a `__dict__`; `eventResult` is `event.result`
(`PyVal.vnone` for `None`).  `sourceExtract` is the part coming from the
source state alone. -/
def sourceExtract (sourceState : Option (List (String × PyVal))) : Option String :=
  match sourceState with
  | some sd => extractFromState sd
  | Option.none => Option.none

def flowFinishedOutput (sourceState : Option (List (String × PyVal)))
    (eventResult : PyVal) : String :=
  let otA : Option String := sourceExtract sourceState
  let otB : Option String :=
    if pyFalsyOpt otA ∧ eventResult ≠ PyVal.vnone then some (pyStr eventResult)
    else otA
  match otB with
  | some s => if s = "" then flowCompletedDefaultMsg else s
  | Option.none => flowCompletedDefaultMsg

/-- `_handle_flow_finished`: warn-and-drop when the record is missing, else
set the record `completed` and attach the extracted output. -/
def handleFlowFinished (revMap : List (String × String))
    (states : List (String × FlowState)) (flowId : String)
    (sourceState : Option (List (String × PyVal))) (eventResult : PyVal)
    (now : Nat) : HandlerOut :=
  let bid := resolveFlowId revMap flowId
  match alookup bid states with
  | Option.none => { states := states, broadcasts := [] }
  | some st =>
    let out := flowFinishedOutput sourceState eventResult
    let st' :=
      { st with status := "completed", timestamp := now, outputs := some out }
    { states := ainsert bid st' states, broadcasts := [(bid, st')] }

/-! ## event_handlers.py / event_implementations.py : unified listener mixin

The superseding unified listener keeps `self.flow_states`; its step entries
use a per-invocation id `"method_<name>_<id(event)>"` and carry a timestamp.
`_ensure_flow_state_exists` CREATES a fresh record when the (resolved) flow
ID has none. -/

structure ImplStep where
  id : String
  name : String
  status : String
  timestamp : Nat
  outputs : Option PyVal
  error : Option String
deriving DecidableEq, Repr

structure ImplFlowState where
  id : String
  name : String
  status : String
  steps : List ImplStep
  timestamp : Nat
deriving DecidableEq, Repr

/-- `EventHandlerMixin._ensure_flow_state_exists`: resolve via
`reverse_flow_id_mapping`, then create a fresh `running` record if none is
stored for the resolved ID (`flow_name or f"Flow <id>"` treats an empty name
as absent).  Returns the resolved ID, the record, and the updated store. -/
def ensureFlowStateExists (revMap : List (String × String))
    (states : List (String × ImplFlowState)) (flowId : String)
    (flowName : Option String) (now : Nat) :
    String × ImplFlowState × List (String × ImplFlowState) :=
  let bid := resolveFlowId revMap flowId
  match alookup bid states with
  | some st => (bid, st, states)
  | Option.none =>
    let nm :=
      match flowName with
      | some n => if n = "" then "Flow " ++ bid else n
      | Option.none => "Flow " ++ bid
    let st : ImplFlowState :=
      { id := bid, name := nm, status := "running", steps := [], timestamp := now }
    (bid, st, ainsert bid st states)

/-- Result of a unified-mixin handler. -/
structure ImplHandlerOut where
  states : List (String × ImplFlowState)
  broadcasts : List (String × ImplFlowState)
deriving Repr

/-- `EventImplementationMixin._handle_method_started`: ensure the record
exists (creating it if missing!) and append a fresh running step whose id
embeds `id(event)` (`eventToken` here). -/
def implHandleMethodStarted (revMap : List (String × String))
    (states : List (String × ImplFlowState)) (flowId methodName : String)
    (eventToken : String) (now : Nat) : ImplHandlerOut :=
  let r := ensureFlowStateExists revMap states flowId Option.none now
  let step : ImplStep :=
    { id := "method_" ++ methodName ++ "_" ++ eventToken, name := methodName
      status := "running", timestamp := now, outputs := Option.none
      error := Option.none }
  let st' := { r.2.1 with steps := r.2.1.steps ++ [step] }
  { states := ainsert r.1 st' r.2.2, broadcasts := [(r.1, st')] }

/-- The loop of `EventImplementationMixin._handle_method_finished`: the FIRST
step whose `name` matches AND whose status is still `running` is completed
(then `break`); every other entry, in particular a matching entry with a
terminal status, is untouched.  `out` is `some v` when
`hasattr(event, "outputs") and event.outputs is not None`, with the
`raw`-or-`str` coercion already applied to give `v`. -/
def completeImplStep (s : ImplStep) (out : Option PyVal) (now : Nat) : ImplStep :=
  let newOuts : Option PyVal :=
    match out with
    | some v => some v
    | Option.none => s.outputs
  { s with status := "completed", timestamp := now, outputs := newOuts }

def updateFirstRunningByName (methodName : String) (out : Option PyVal)
    (now : Nat) : List ImplStep → List ImplStep
  | [] => []
  | s :: rest =>
    if s.name = methodName ∧ s.status = "running" then
      completeImplStep s out now :: rest
    else s :: updateFirstRunningByName methodName out now rest

/-- `EventImplementationMixin._handle_method_finished`. -/
def implHandleMethodFinished (revMap : List (String × String))
    (states : List (String × ImplFlowState)) (flowId methodName : String)
    (eventOutputs : Option PyVal) (now : Nat) : ImplHandlerOut :=
  let r := ensureFlowStateExists revMap states flowId Option.none now
  let st' :=
    { r.2.1 with steps := updateFirstRunningByName methodName eventOutputs now r.2.1.steps }
  { states := ainsert r.1 st' r.2.2, broadcasts := [(r.1, st')] }

/-! ## flow_api.py : `_execute_flow_async` mapping step -/

/-- The mapping creation performed after each run-method branch of
`_execute_flow_async` (lines 372-376 and its three clones):
`internal_flow_id = getattr(flow, "id", None)`; when it is truthy and
differs from the API flow id, both mapping dicts are assigned
UNCONDITIONALLY, overwriting any established binding. -/
def executeFlowMappingStep (fwdMap revMap : List (String × String))
    (flowId : String) (internalId : Option String) :
    List (String × String) × List (String × String) :=
  match internalId with
  | some iid =>
    if iid ≠ "" ∧ iid ≠ flowId then
      (ainsert flowId iid fwdMap, ainsert iid flowId revMap)
    else (fwdMap, revMap)
  | Option.none => (fwdMap, revMap)

/-! ## websocket_utils.py : flow_websocket_queues registry

The registry maps a flow ID to an inner dict from connection ID to its
asyncio queue; queues are opaque here (`Nat` tokens). -/

def QueueTable : Type := List (String × List (String × Nat))

/-- `register_websocket_queue`: create the inner dict if absent, then assign
the connection's queue. -/
def registerWebsocketQueue (t : List (String × List (String × Nat)))
    (flowId connId : String) (q : Nat) : List (String × List (String × Nat)) :=
  let inner :=
    match alookup flowId t with
    | some i => i
    | Option.none => []
  ainsert flowId (ainsert connId q inner) t

/-- `unregister_websocket_queue`: delete the connection entry when both keys
exist, and delete the whole flow entry when its inner dict became empty. -/
def unregisterWebsocketQueue (t : List (String × List (String × Nat)))
    (flowId connId : String) : List (String × List (String × Nat)) :=
  match alookup flowId t with
  | Option.none => t
  | some inner =>
    if (alookup connId inner).isSome then
      let inner' := aremove connId inner
      if inner'.isEmpty then aremove flowId t
      else ainsert flowId inner' t
    else t

/-- The invariant of the subscriber table: every stored flow entry holds a
non-empty connection dict. -/
def queueTableInv (t : List (String × List (String × Nat))) : Prop :=
  ∀ p ∈ t, p.2 ≠ []

/-! ## event_listener.py : task-to-agent assignment heuristic

`on_crew_kickoff_started`, lines 278-343.  Agents are given as
`(role, agent_id)` pairs in declaration order (agents lacking an `id`
attribute are filtered out by the Python code before this point); the
`agent_by_role` dict keys roles by their lowercase form in that order. -/

/-- ASCII lowercasing, as `str.lower()` acts on the ASCII inputs involved. -/
def lowerChar (c : Char) : Char :=
  if c.toNat ≥ 65 ∧ c.toNat ≤ 90 then Char.ofNat (c.toNat + 32) else c

def pyLower (s : String) : String := String.mk (s.data.map lowerChar)

/-- `str.split()` with no argument: split on whitespace runs, no empties. -/
def splitWsAux (cur : List Char) : List Char → List String
  | [] => if cur.isEmpty then [] else [String.mk cur.reverse]
  | c :: cs =>
    if c.isWhitespace then
      if cur.isEmpty then splitWsAux [] cs
      else String.mk cur.reverse :: splitWsAux [] cs
    else splitWsAux (c :: cur) cs

def pySplitWs (s : String) : List String := splitWsAux [] s.data

/-- Does `needle` occur as a substring of `hay` (Python `needle in hay`)? -/
def charsLeadWith : List Char → List Char → Bool
  | [], _ => true
  | _ :: _, [] => false
  | a :: as, b :: bs => a = b && charsLeadWith as bs

def charsContain (needle : List Char) : List Char → Bool
  | [] => needle.isEmpty
  | b :: bs => charsLeadWith needle (b :: bs) || charsContain needle bs

def pyInStr (needle hay : String) : Bool := charsContain needle.data hay.data

/-- Lines 307-321: the matching score of one `(role, task_desc)` pair (both
already lowercased):  the number of distinct words longer than 3 characters
shared by the two word sets, plus the two fixed keyword bonuses. -/
def matchScore (role taskDesc : String) : Nat :=
  let roleWords := (pySplitWs role).eraseDups
  let taskWords := pySplitWs taskDesc
  let base :=
    (roleWords.filter (fun w => taskWords.contains w && w.length > 3)).length
  let bonus1 :=
    if pyInStr "research" role && pyInStr "research" taskDesc then 3 else 0
  let bonus2 :=
    if pyInStr "analyst" role
        && (["analyz", "review", "report"].any (fun kw => pyInStr kw taskDesc))
      then 3 else 0
  base + bonus1 + bonus2

/-- Lines 298-325: the best-match loop over `agent_by_role.items()` in
insertion order, skipping empty roles, strict improvement only (ties keep
the earlier agent). -/
def bestAgentMatchAux (taskDesc : String) (best : Option String)
    (bestScore : Nat) : List (String × String) → Option String × Nat
  | [] => (best, bestScore)
  | (role, aid) :: rest =>
    if role = "" then bestAgentMatchAux taskDesc best bestScore rest
    else
      let score := matchScore role taskDesc
      if score > bestScore then bestAgentMatchAux taskDesc (some aid) score rest
      else bestAgentMatchAux taskDesc best bestScore rest

/-- Lines 296-343: assignment of a task with no pre-assigned agent.  When no
pair scores above zero: a lone agent gets the task; with exactly two agents a
"research"-flavored description goes to the first-declared agent and a
report/analyze/review/summarize-flavored one to the second; otherwise the
task stays unassigned. -/
def assignAgentForTask (agents : List (String × String))
    (rawTaskDescription : String) : Option String :=
  let taskDesc := pyLower rawTaskDescription
  let byRole := agents.map (fun p => (pyLower p.1, p.2))
  let best := bestAgentMatchAux taskDesc Option.none 0 byRole
  if best.2 > 0 then best.1
  else if agents.length = 1 then agents.head?.map Prod.snd
  else if agents.length = 2 then
    if pyInStr "research" taskDesc then agents.head?.map Prod.snd
    else if ["report", "analyz", "review", "summarize"].any
        (fun kw => pyInStr kw taskDesc) then
      (agents.get? 1).map Prod.snd
    else Option.none
  else Option.none

/-! ## Auxiliary predicates and concrete fixtures used by the theorems -/

/-- A priority field "yields no value": it is absent from the state dict or
bound to `None`. -/
def fieldMissing (sd : List (String × PyVal)) (f : String) : Prop :=
  alookup f sd = Option.none ∨ alookup f sd = some PyVal.vnone

/-- Fixture: a flow record whose single step already finished with output
`"a"`. -/
def cexTerminalStepState : FlowState :=
  { id := "f", name := "F", status := "running"
    steps := [{ id := "m", name := "m", status := "completed"
                outputs := some (PyVal.vstr "a"), error := Option.none }]
    outputs := Option.none, timestamp := 0 }

/-- Fixture: a flow record that already reached terminal status. -/
def cexCompletedFlowState : FlowState :=
  { id := "f", name := "F", status := "completed", steps := []
    outputs := some "done", timestamp := 5 }

/-- Fixture: an empty flow record used by witnesses. -/
def witEmptyFlowState : FlowState :=
  { id := "f", name := "F", status := "running", steps := []
    outputs := Option.none, timestamp := 0 }

/-- Fixture: an impl-listener record with one running and one completed step
of the same method name. -/
def witImplState : ImplFlowState :=
  { id := "f", name := "F", status := "running"
    steps := [{ id := "method_m_1", name := "m", status := "completed"
                timestamp := 1, outputs := some (PyVal.vstr "old")
                error := Option.none },
              { id := "method_m_2", name := "m", status := "running"
                timestamp := 2, outputs := Option.none, error := Option.none }]
    timestamp := 2 }

/-! # Theorems -/

theorem alookup_ainsert {α : Type} (k k' : String) (v : α) (l : List (String × α)) :
    alookup k (ainsert k' v l) = if k = k' then some v else alookup k l := by
  induction l with
  | nil => simp [ainsert, alookup]
  | cons hd tl ih =>
    obtain ⟨k'', v''⟩ := hd
    by_cases h1 : k' = k''
    · subst h1
      by_cases h2 : k = k' <;> simp [ainsert, alookup, h2]
    · by_cases h2 : k = k''
      · subst h2
        have hne : k ≠ k' := fun h => h1 h.symm
        simp [ainsert, alookup, h1, hne]
      · simp [ainsert, alookup, h1, h2, ih]

theorem mem_ainsert {α : Type} (p : String × α) (k : String) (v : α)
    (l : List (String × α)) (h : p ∈ ainsert k v l) : p = (k, v) ∨ p ∈ l := by
  induction l with
  | nil => simp [ainsert] at h; simp [h]
  | cons hd tl ih =>
    obtain ⟨k', v'⟩ := hd
    by_cases hk : k = k'
    · simp [ainsert, hk] at h
      rcases h with h | h
      · left; simp [h, hk]
      · right; simp [h]
    · simp [ainsert, hk] at h
      rcases h with h | h
      · right; simp [h]
      · rcases ih h with h' | h'
        · left; exact h'
        · right; simp [h']

theorem mem_aremove {α : Type} (p : String × α) (k : String)
    (l : List (String × α)) (h : p ∈ aremove k l) : p ∈ l := by
  induction l with
  | nil => simp [aremove] at h
  | cons hd tl ih =>
    obtain ⟨k', v'⟩ := hd
    by_cases hk : k = k'
    · simp [aremove, hk] at h; simp [h]
    · simp [aremove, hk] at h
      rcases h with h | h
      · simp [h]
      · simp [ih h]

theorem ainsert_ne_nil {α : Type} (k : String) (v : α) (l : List (String × α)) :
    ainsert k v l ≠ [] := by
  cases l with
  | nil => simp [ainsert]
  | cons hd tl =>
    obtain ⟨k', v'⟩ := hd
    by_cases hk : k = k' <;> simp [ainsert, hk]

theorem alookup_eq_none_of_not_mem {α : Type} (k : String)
    (l : List (String × α)) (h : ∀ v, (k, v) ∉ l) : alookup k l = Option.none := by
  induction l with
  | nil => rfl
  | cons hd tl ih =>
    obtain ⟨k', v'⟩ := hd
    by_cases hk : k = k'
    · subst hk
      exact absurd (List.mem_cons_self _ _) (h v')
    · exact (if_neg hk).trans (ih (fun v hv => h v (List.mem_cons_of_mem _ hv)))

theorem alookup_aremove_self {α : Type} (k : String) (l : List (String × α))
    (h : (l.map Prod.fst).Nodup) : alookup k (aremove k l) = Option.none := by
  induction l with
  | nil => rfl
  | cons hd tl ih =>
    obtain ⟨k', v'⟩ := hd
    simp at h
    by_cases hk : k = k'
    · subst hk
      have he : aremove k ((k, v') :: tl) = tl := by simp [aremove]
      rw [he]
      exact alookup_eq_none_of_not_mem k tl (fun v hv => h.1 v hv)
    · simp [aremove, hk, alookup, ih h.2]

theorem countP_le_one_decomp {α : Type} (p : α → Bool) (l : List α)
    (h : l.countP p ≤ 1) :
    (∀ a ∈ l, ¬ p a = true) ∨
    ∃ l1 a l2, l = l1 ++ a :: l2 ∧ p a = true ∧
      (∀ b ∈ l1, ¬ p b = true) ∧ (∀ b ∈ l2, ¬ p b = true) := by
  induction l with
  | nil => left; simp
  | cons a tl ih =>
    by_cases hp : p a = true
    · right
      have hc : tl.countP p = 0 := by
        have hcons := List.countP_cons_of_pos p tl hp
        omega
      exact ⟨[], a, tl, by simp, hp, by simp, List.countP_eq_zero.mp hc⟩
    · have htl : tl.countP p ≤ 1 := by
        have hcons := List.countP_cons_of_neg p tl hp
        rw [hcons] at h
        exact h
      rcases ih htl with hall | ⟨l1, b, l2, heq, hb, h1, h2⟩
      · left
        intro x hx
        rcases List.mem_cons.mp hx with hx | hx
        · subst hx; exact hp
        · exact hall x hx
      · right
        refine ⟨a :: l1, b, l2, by simp [heq], hb, ?_, h2⟩
        intro x hx
        rcases List.mem_cons.mp hx with hx | hx
        · subst hx; exact hp
        · exact h1 x hx

theorem markFirstRunningById_append (m : String) (l1 : List FlowStep)
    (s : FlowStep) (l2 : List FlowStep) (h1 : ∀ t ∈ l1, t.id ≠ m)
    (hs : s.id = m) :
    markFirstRunningById m (l1 ++ s :: l2)
      = l1 ++ { s with status := "running" } :: l2 := by
  induction l1 with
  | nil => simp [markFirstRunningById, hs]
  | cons a tl ih =>
    have ha : a.id ≠ m := h1 a (by simp)
    simp [markFirstRunningById, ha, ih (fun t ht => h1 t (by simp [ht]))]

theorem completeFirstById_append (m : String) (out : PyVal)
    (l1 : List FlowStep) (s : FlowStep) (l2 : List FlowStep)
    (h1 : ∀ t ∈ l1, t.id ≠ m) (hs : s.id = m) :
    completeFirstById m out (l1 ++ s :: l2)
      = l1 ++ { s with status := "completed", outputs := some out } :: l2 := by
  induction l1 with
  | nil => simp [completeFirstById, hs]
  | cons a tl ih =>
    have ha : a.id ≠ m := h1 a (by simp)
    simp [completeFirstById, ha, ih (fun t ht => h1 t (by simp [ht]))]

/-- Claim C1: on an existing execution record (whose steps list mentions the
method name at most once, as the handlers themselves guarantee), processing a
StepStarted event and then a StepFinished event with the same method name
leaves exactly one step entry with that name, with status completed and the
event's result attached as its outputs — never two entries. -/
theorem step_start_finish_single_entry
    (revMap : List (String × String)) (states : List (String × FlowState))
    (flowId m : String) (res : PyVal) (now1 now2 : Nat) (st : FlowState)
    (hrec : alookup (resolveFlowId revMap flowId) states = some st)
    (hcount : st.steps.countP (fun s => s.id = m) ≤ 1) :
    ∃ r : FlowState,
      alookup (resolveFlowId revMap flowId)
        (handleMethodFinished revMap
          (handleMethodStarted revMap states flowId m now1).states
          flowId m res now2).states = some r ∧
      r.steps.countP (fun s => s.id = m) = 1 ∧
      ∀ s ∈ r.steps, s.id = m → s.status = "completed" ∧ s.outputs = some res := by
  rcases countP_le_one_decomp _ _ hcount with hnone | ⟨l1, s0, l2, heq, hs0, h1, h2⟩
  · -- no pre-existing entry with that name: started appends a running entry,
    -- finished completes it
    have hany : st.steps.any (fun s => decide (s.id = m)) = false := by
      rw [List.any_eq_false]
      intro x hx
      exact hnone x hx
    have hnomem : ∀ t ∈ st.steps, t.id ≠ m := by
      intro t ht
      have := hnone t ht
      simpa using this
    set newStep : FlowStep :=
      { id := m, name := m, status := "running"
        outputs := some PyVal.vnone, error := Option.none } with hnew
    have hstates1 :
        (handleMethodStarted revMap states flowId m now1).states
          = ainsert (resolveFlowId revMap flowId)
              { st with steps := st.steps ++ [newStep], timestamp := now1 }
              states := by
      simp only [handleMethodStarted, hrec, hany]
      rfl
    have hrec1 : alookup (resolveFlowId revMap flowId)
        (handleMethodStarted revMap states flowId m now1).states
          = some { st with steps := st.steps ++ [newStep], timestamp := now1 } := by
      rw [hstates1, alookup_ainsert, if_pos rfl]
    have hany1 : (st.steps ++ [newStep]).any (fun s => decide (s.id = m)) = true := by
      rw [List.any_eq_true]
      exact ⟨newStep, by simp, by simp [hnew]⟩
    have hcompl : completeFirstById m res (st.steps ++ [newStep])
        = st.steps ++
          [{ newStep with status := "completed", outputs := some res }] :=
      completeFirstById_append m res st.steps newStep [] hnomem (by simp [hnew])
    refine ⟨{ st with
        steps := st.steps ++
          [{ newStep with status := "completed", outputs := some res }]
        timestamp := now2 }, ?_, ?_, ?_⟩
    · simp only [handleMethodFinished, hrec1, hany1]
      simp [hcompl, alookup_ainsert]
    · simp only [List.countP_append]
      have : st.steps.countP (fun s => decide (s.id = m)) = 0 :=
        List.countP_eq_zero.mpr (fun x hx => by simpa using hnomem x hx)
      simp [this, hnew]
    · intro s hsmem hsid
      rcases List.mem_append.mp hsmem with hmem | hmem
      · exact absurd hsid (hnomem s hmem)
      · simp at hmem
        subst hmem
        exact ⟨rfl, rfl⟩
  · -- exactly one pre-existing entry: started marks it running, finished
    -- completes it
    have hs0' : s0.id = m := by simpa using hs0
    have h1' : ∀ t ∈ l1, t.id ≠ m := fun t ht => by simpa using h1 t ht
    have h2' : ∀ t ∈ l2, t.id ≠ m := fun t ht => by simpa using h2 t ht
    have hany : st.steps.any (fun s => decide (s.id = m)) = true := by
      rw [List.any_eq_true]
      exact ⟨s0, by simp [heq], by simp [hs0']⟩
    have hmark : markFirstRunningById m st.steps
        = l1 ++ { s0 with status := "running" } :: l2 := by
      rw [heq]
      exact markFirstRunningById_append m l1 s0 l2 h1' hs0'
    have hstates1 :
        (handleMethodStarted revMap states flowId m now1).states
          = ainsert (resolveFlowId revMap flowId)
              { st with steps := l1 ++ { s0 with status := "running" } :: l2
                        timestamp := now1 }
              states := by
      simp only [handleMethodStarted, hrec, hany]
      simp [hmark]
    have hrec1 : alookup (resolveFlowId revMap flowId)
        (handleMethodStarted revMap states flowId m now1).states
          = some { st with steps := l1 ++ { s0 with status := "running" } :: l2
                           timestamp := now1 } := by
      rw [hstates1, alookup_ainsert, if_pos rfl]
    have hany1 : (l1 ++ { s0 with status := "running" } :: l2).any
        (fun s => decide (s.id = m)) = true := by
      rw [List.any_eq_true]
      exact ⟨{ s0 with status := "running" }, by simp, by simp [hs0']⟩
    have hcompl : completeFirstById m res
        (l1 ++ { s0 with status := "running" } :: l2)
        = l1 ++ { s0 with status := "completed", outputs := some res } :: l2 :=
      completeFirstById_append m res l1 _ l2 h1' (by simpa using hs0')
    refine ⟨{ st with
        steps := l1 ++ { s0 with status := "completed", outputs := some res } :: l2
        timestamp := now2 }, ?_, ?_, ?_⟩
    · simp only [handleMethodFinished, hrec1, hany1]
      simp [hcompl, alookup_ainsert]
    · simp only [List.countP_append, List.countP_cons]
      have hz1 : l1.countP (fun s => decide (s.id = m)) = 0 :=
        List.countP_eq_zero.mpr (fun x hx => by simpa using h1' x hx)
      have hz2 : l2.countP (fun s => decide (s.id = m)) = 0 :=
        List.countP_eq_zero.mpr (fun x hx => by simpa using h2' x hx)
      simp [hz1, hz2, hs0']
    · intro s hsmem hsid
      rcases List.mem_append.mp hsmem with hmem | hmem
      · exact absurd hsid (h1' s hmem)
      · rcases List.mem_cons.mp hmem with hmem | hmem
        · subst hmem
          exact ⟨rfl, rfl⟩
        · exact absurd hsid (h2' s hmem)

/-- Witness for C1 at a concrete record with no prior steps. -/
theorem step_start_finish_single_entry_witness :
    (alookup (resolveFlowId [] "f") [("f", witEmptyFlowState)]
        = some witEmptyFlowState) ∧
    (witEmptyFlowState.steps.countP (fun s => s.id = "m") ≤ 1) ∧
    (∃ r : FlowState,
      alookup (resolveFlowId [] "f")
        (handleMethodFinished []
          (handleMethodStarted [] [("f", witEmptyFlowState)] "f" "m" 1).states
          "f" "m" (PyVal.vstr "ok") 2).states = some r ∧
      r.steps.countP (fun s => s.id = "m") = 1 ∧
      ∀ s ∈ r.steps, s.id = "m" →
        s.status = "completed" ∧ s.outputs = some (PyVal.vstr "ok")) :=
  ⟨rfl, by decide,
    step_start_finish_single_entry [] [("f", witEmptyFlowState)] "f" "m"
      (PyVal.vstr "ok") 1 2 witEmptyFlowState rfl (by decide)⟩

/-- Claim C2 counterexample: in `FlowWebSocketEventListener._handle_method_finished`
the linear scan matches on the step id ONLY, with no status check.  Concretely,
on a record whose single step named `"m"` already has terminal status
`"completed"` with outputs `"a"`, a second StepFinished event for `"m"` with
result `"b"` rewrites that terminal entry's outputs to `"b"` — the claim says
an already-terminal matching entry is left unchanged. -/
theorem method_finished_overwrites_terminal_entry :
    cexTerminalStepState.steps.map (fun s => (s.status, s.outputs))
      = [("completed", some (PyVal.vstr "a"))] ∧
    (alookup "f" (handleMethodFinished [] [("f", cexTerminalStepState)]
        "f" "m" (PyVal.vstr "b") 1).states).map
        (fun r => r.steps.map (fun s => (s.status, s.outputs)))
      = some [("completed", some (PyVal.vstr "b"))] ∧
    some (PyVal.vstr "b") ≠ some (PyVal.vstr "a") := by
  refine ⟨rfl, ?_, by decide⟩
  rfl

theorem updateFirstRunningByName_append (m : String) (out : Option PyVal)
    (now : Nat) (l1 : List ImplStep) (s : ImplStep) (l2 : List ImplStep)
    (h1 : ∀ t ∈ l1, ¬(t.name = m ∧ t.status = "running"))
    (hs : s.name = m) (hrun : s.status = "running") :
    updateFirstRunningByName m out now (l1 ++ s :: l2)
      = l1 ++ (completeImplStep s out now :: l2) := by
  induction l1 with
  | nil => simp [updateFirstRunningByName, hs, hrun]
  | cons a tl ih =>
    have ha : ¬(a.name = m ∧ a.status = "running") := h1 a (by simp)
    simp only [List.cons_append, updateFirstRunningByName, if_neg ha]
    exact congrArg (List.cons a) (ih (fun t ht => h1 t (by simp [ht])))

theorem updateFirstRunningByName_no_match (m : String) (out : Option PyVal)
    (now : Nat) (l : List ImplStep)
    (h : ∀ t ∈ l, ¬(t.name = m ∧ t.status = "running")) :
    updateFirstRunningByName m out now l = l := by
  induction l with
  | nil => rfl
  | cons a tl ih =>
    have ha : ¬(a.name = m ∧ a.status = "running") := h a (by simp)
    simp only [updateFirstRunningByName, if_neg ha]
    rw [ih (fun t ht => h t (by simp [ht]))]

/-- Claim C2 (amended): the RUNNING-only match rule holds for the unified
listener (`EventImplementationMixin._handle_method_finished`): there the
entry set to terminal status is the first step whose name matches AND whose
status is still running, and matching entries already in a terminal status
are left unchanged (and when no running match exists, no step changes at
all).  In `FlowWebSocketEventListener._handle_method_finished` the scan
instead picks the first entry with matching id regardless of status. -/
theorem impl_method_finished_updates_first_running
    (revMap : List (String × String))
    (states : List (String × ImplFlowState)) (flowId m : String)
    (out : Option PyVal) (now : Nat) (st : ImplFlowState)
    (hrec : alookup (resolveFlowId revMap flowId) states = some st) :
    (∀ l1 s l2, st.steps = l1 ++ s :: l2 →
      (∀ t ∈ l1, ¬(t.name = m ∧ t.status = "running")) →
      s.name = m → s.status = "running" →
      ∃ r, alookup (resolveFlowId revMap flowId)
          (implHandleMethodFinished revMap states flowId m out now).states
            = some r ∧
        r.steps = l1 ++ (completeImplStep s out now :: l2)) ∧
    ((∀ t ∈ st.steps, ¬(t.name = m ∧ t.status = "running")) →
      ∃ r, alookup (resolveFlowId revMap flowId)
          (implHandleMethodFinished revMap states flowId m out now).states
            = some r ∧
        r.steps = st.steps) := by
  have hens : ensureFlowStateExists revMap states flowId Option.none now
      = (resolveFlowId revMap flowId, st, states) := by
    simp [ensureFlowStateExists, hrec]
  constructor
  · intro l1 s l2 hsteps h1 hs hrun
    refine ⟨{ st with steps := updateFirstRunningByName m out now st.steps },
      ?_, ?_⟩
    · simp only [implHandleMethodFinished, hens]
      rw [alookup_ainsert, if_pos rfl]
    · simp only [hsteps]
      exact updateFirstRunningByName_append m out now l1 s l2 h1 hs hrun
  · intro hno
    refine ⟨{ st with steps := updateFirstRunningByName m out now st.steps },
      ?_, ?_⟩
    · simp only [implHandleMethodFinished, hens]
      rw [alookup_ainsert, if_pos rfl]
    · exact updateFirstRunningByName_no_match m out now st.steps hno

/-- Witness for the amended C2: on a record with a completed step and a
later running step of the same name, StepFinished completes the running one
and leaves the terminal one untouched. -/
theorem impl_method_finished_updates_first_running_witness :
    (alookup (resolveFlowId [] "f") [("f", witImplState)] = some witImplState) ∧
    (∃ r, alookup (resolveFlowId [] "f")
        (implHandleMethodFinished [] [("f", witImplState)] "f" "m"
          (some (PyVal.vstr "new")) 9).states = some r ∧
      r.steps =
        [{ id := "method_m_1", name := "m", status := "completed"
           timestamp := 1, outputs := some (PyVal.vstr "old")
           error := Option.none },
         { id := "method_m_2", name := "m", status := "completed"
           timestamp := 9, outputs := some (PyVal.vstr "new")
           error := Option.none }]) := by
  refine ⟨rfl, ?_⟩
  have h := (impl_method_finished_updates_first_running [] [("f", witImplState)]
    "f" "m" (some (PyVal.vstr "new")) 9 witImplState rfl).1
    [{ id := "method_m_1", name := "m", status := "completed", timestamp := 1
       outputs := some (PyVal.vstr "old"), error := Option.none }]
    { id := "method_m_2", name := "m", status := "running", timestamp := 2
      outputs := Option.none, error := Option.none }
    [] rfl (by decide) rfl rfl
  simpa using h

/-- Claim C3 counterexample: `_handle_flow_started` stores a fresh record
with status `"running"` UNCONDITIONALLY (`flow_states[broadcast_flow_id] =
flow_state`), so a later FlowStarted event for the canonical ID of an
execution whose status is already terminal `"completed"` moves it back to
`"running"`. -/
theorem flow_started_resets_terminal_status :
    cexCompletedFlowState.status = "completed" ∧
    (alookup "f" (handleFlowStarted [] [] [] [("f", cexCompletedFlowState)]
        "f" "F" 9).states).map FlowState.status = some "running" ∧
    "running" ≠ "completed" := by
  refine ⟨rfl, ?_, by decide⟩
  rfl

theorem preserve_status_of_ainsert (states : List (String × FlowState))
    (bid : String) (st st' : FlowState)
    (hb : alookup bid states = some st)
    (hstat : st'.status = st.status ∨ st'.status = "completed")
    (k : String) (r r' : FlowState)
    (hk : alookup k states = some r) (hcomp : r.status = "completed")
    (hk' : alookup k (ainsert bid st' states) = some r') :
    r'.status = "completed" := by
  rw [alookup_ainsert] at hk'
  by_cases hkb : k = bid
  · rw [if_pos hkb] at hk'
    cases hk'
    subst hkb
    rw [hk] at hb
    cases hb
    rcases hstat with h | h
    · rw [h, hcomp]
    · exact h
  · rw [if_neg hkb, hk] at hk'
    cases hk'
    exact hcomp

/-- Claim C3 (amended): across StepStarted, StepFinished, StepFailed and
ExecutionFinished events, a record whose status is terminal `"completed"`
keeps that status; however the claim's parenthetical fails: a later
FlowStarted for the same canonical ID replaces the record with a fresh
RUNNING one, so the status does transition out of the terminal state there. -/
theorem terminal_status_stable_under_step_and_finish_events
    (revMap : List (String × String)) (states : List (String × FlowState))
    (flowId m err : String) (res eventResult : PyVal)
    (sourceState : Option (List (String × PyVal))) (now : Nat) (k : String)
    (r : FlowState) (hk : alookup k states = some r)
    (hcomp : r.status = "completed") :
    (∀ r', alookup k (handleMethodStarted revMap states flowId m now).states
        = some r' → r'.status = "completed") ∧
    (∀ r', alookup k (handleMethodFinished revMap states flowId m res now).states
        = some r' → r'.status = "completed") ∧
    (∀ r', alookup k (handleMethodFailed states flowId m err now).states
        = some r' → r'.status = "completed") ∧
    (∀ r', alookup k (handleFlowFinished revMap states flowId sourceState
        eventResult now).states = some r' → r'.status = "completed") := by
  refine ⟨?_, ?_, ?_, ?_⟩
  · intro r' hk'
    rcases hrec : alookup (resolveFlowId revMap flowId) states with _ | st
    · simp only [handleMethodStarted, hrec] at hk'
      rw [hk] at hk'
      cases hk'
      exact hcomp
    · simp only [handleMethodStarted, hrec] at hk'
      refine preserve_status_of_ainsert states _ st _ hrec ?_ k r r' hk hcomp hk'
      exact Or.inl rfl
  · intro r' hk'
    rcases hrec : alookup (resolveFlowId revMap flowId) states with _ | st
    · simp only [handleMethodFinished, hrec] at hk'
      rw [hk] at hk'
      cases hk'
      exact hcomp
    · simp only [handleMethodFinished, hrec] at hk'
      refine preserve_status_of_ainsert states _ st _ hrec ?_ k r r' hk hcomp hk'
      exact Or.inl rfl
  · intro r' hk'
    rcases hrec : alookup flowId states with _ | st
    · simp only [handleMethodFailed, hrec] at hk'
      rw [hk] at hk'
      cases hk'
      exact hcomp
    · simp only [handleMethodFailed, hrec] at hk'
      refine preserve_status_of_ainsert states _ st _ hrec ?_ k r r' hk hcomp hk'
      exact Or.inl rfl
  · intro r' hk'
    rcases hrec : alookup (resolveFlowId revMap flowId) states with _ | st
    · simp only [handleFlowFinished, hrec] at hk'
      rw [hk] at hk'
      cases hk'
      exact hcomp
    · simp only [handleFlowFinished, hrec] at hk'
      refine preserve_status_of_ainsert states _ st _ hrec ?_ k r r' hk hcomp hk'
      exact Or.inr rfl

/-- Witness for the amended C3: a completed record stays completed through a
StepStarted event. -/
theorem terminal_status_stable_witness :
    (alookup "f" [("f", cexCompletedFlowState)] = some cexCompletedFlowState) ∧
    (cexCompletedFlowState.status = "completed") ∧
    (∀ r', alookup "f" (handleMethodStarted [] [("f", cexCompletedFlowState)]
        "g" "m" 7).states = some r' → r'.status = "completed") :=
  ⟨rfl, rfl,
    (terminal_status_stable_under_step_and_finish_events []
      [("f", cexCompletedFlowState)] "g" "m" "e" PyVal.vnone PyVal.vnone
      Option.none 7 "f" cexCompletedFlowState rfl rfl).1⟩

/-- Claim C4 counterexample: not every step handler drops events for unknown
execution IDs.  `EventImplementationMixin._handle_method_started` goes through
`_ensure_flow_state_exists`, which CREATES a fresh record for the unknown ID
and then appends the step to it: starting from an empty store, a StepStarted
event for flow `"f"` leaves a stored record with one running step. -/
theorem impl_method_started_creates_missing_record :
    alookup "f" ([] : List (String × ImplFlowState)) = Option.none ∧
    alookup "f" (implHandleMethodStarted [] [] "f" "m" "77" 3).states
      = some { id := "f", name := "Flow f", status := "running"
               steps := [{ id := "method_m_77", name := "m"
                           status := "running", timestamp := 3
                           outputs := Option.none, error := Option.none }]
               timestamp := 3 } := by
  exact ⟨rfl, rfl⟩

/-- Claim C4 (amended): the warn-and-drop behavior holds for the
`FlowWebSocketEventListener` handlers: a StepStarted, StepFinished or
StepFailed event whose (resolved) execution ID has no record leaves the store
untouched and broadcasts nothing.  The unified listener mixin cited alongside
instead creates a fresh record via `_ensure_flow_state_exists`. -/
theorem flow_listener_step_events_dropped_without_record
    (revMap : List (String × String)) (states : List (String × FlowState))
    (flowId m err : String) (res : PyVal) (now : Nat) :
    (alookup (resolveFlowId revMap flowId) states = Option.none →
      handleMethodStarted revMap states flowId m now
        = { states := states, broadcasts := [] }) ∧
    (alookup (resolveFlowId revMap flowId) states = Option.none →
      handleMethodFinished revMap states flowId m res now
        = { states := states, broadcasts := [] }) ∧
    (alookup flowId states = Option.none →
      handleMethodFailed states flowId m err now
        = { states := states, broadcasts := [] }) := by
  refine ⟨?_, ?_, ?_⟩
  · intro h
    simp [handleMethodStarted, h]
  · intro h
    simp [handleMethodFinished, h]
  · intro h
    simp [handleMethodFailed, h]

/-- Witness for the amended C4 on an empty store. -/
theorem flow_listener_step_events_dropped_witness :
    (alookup (resolveFlowId [] "f") ([] : List (String × FlowState))
      = Option.none) ∧
    (handleMethodStarted [] [] "f" "m" 3
      = { states := [], broadcasts := [] }) :=
  ⟨rfl, (flow_listener_step_events_dropped_without_record [] [] "f" "m" "e"
    PyVal.vnone 3).1 rfl⟩

/-- Claim C5 counterexample: the mapping-creation step of
`_execute_flow_async` assigns `flow_id_mapping[flow_id] = internal_flow_id`
and `reverse_flow_id_mapping[internal_flow_id] = flow_id` with no presence
check.  Concretely, with `flow_id_mapping = ("A" -> "ib")` (established
earlier, e.g. by the pairing heuristic) and the flow object reporting
internal id `"ia"`, the step reassigns the entry for `"A"` from `"ib"` to
`"ia"`, and likewise establishes a reverse entry for `"ia"` — mappings ARE
overwritten to point at a different ID. -/
theorem execute_flow_mapping_step_overwrites :
    alookup "A" [("A", "ib")] = some "ib" ∧
    alookup "A" (executeFlowMappingStep [("A", "ib")] [("ib", "A")]
      "A" (some "ia")).1 = some "ia" ∧
    ("ia" : String) ≠ "ib" := by
  refine ⟨rfl, ?_, by decide⟩
  rfl

/-- Claim C5 (amended): `_handle_flow_started` itself never reassigns an
established mapping — it adds a pair only for an API ID with no forward
mapping and an internal ID with no (truthy) reverse mapping; but the
post-execution mapping step of `_execute_flow_async` assigns unconditionally
and can overwrite an established entry with a different ID. -/
theorem flow_started_mappings_never_reassigned
    (fwdMap revMap : List (String × String)) (activeFlows : List String)
    (states : List (String × FlowState)) (flowId flowName : String)
    (now : Nat) :
    (∀ k v, alookup k fwdMap = some v →
      alookup k (handleFlowStarted fwdMap revMap activeFlows states
        flowId flowName now).fwdMap = some v) ∧
    (∀ k v, v ≠ "" → alookup k revMap = some v →
      alookup k (handleFlowStarted fwdMap revMap activeFlows states
        flowId flowName now).revMap = some v) := by
  constructor
  · intro k v hkv
    rcases ha : alookup flowId revMap with _ | a
    · rcases hf : activeFlows.find? (fun apiId => (alookup apiId fwdMap).isNone)
        with _ | p
      · simp [handleFlowStarted, ha, hf, hkv]
      · have hp : (alookup p fwdMap).isNone := by
          have := List.find?_some hf
          simpa using this
        have hkp : k ≠ p := by
          intro h
          subst h
          rw [hkv] at hp
          simp at hp
        simp [handleFlowStarted, ha, hf, alookup_ainsert, hkp, hkv]
    · by_cases hae : a = ""
      · subst hae
        rcases hf : activeFlows.find? (fun apiId => (alookup apiId fwdMap).isNone)
          with _ | p
        · simp [handleFlowStarted, ha, hf, hkv]
        · have hp : (alookup p fwdMap).isNone := by
            have := List.find?_some hf
            simpa using this
          have hkp : k ≠ p := by
            intro h
            subst h
            rw [hkv] at hp
            simp at hp
          simp [handleFlowStarted, ha, hf, alookup_ainsert, hkp, hkv]
      · simp [handleFlowStarted, ha, hae, hkv]
  · intro k v hv hkv
    rcases ha : alookup flowId revMap with _ | a
    · rcases hf : activeFlows.find? (fun apiId => (alookup apiId fwdMap).isNone)
        with _ | p
      · simp [handleFlowStarted, ha, hf, hkv]
      · have hkp : k ≠ flowId := by
          intro h
          subst h
          rw [hkv] at ha
          cases ha
        simp [handleFlowStarted, ha, hf, alookup_ainsert, hkp, hkv]
    · by_cases hae : a = ""
      · subst hae
        rcases hf : activeFlows.find? (fun apiId => (alookup apiId fwdMap).isNone)
          with _ | p
        · simp [handleFlowStarted, ha, hf, hkv]
        · have hkp : k ≠ flowId := by
            intro h
            subst h
            rw [hkv] at ha
            cases ha
            exact hv rfl
          simp [handleFlowStarted, ha, hf, alookup_ainsert, hkp, hkv]
      · simp [handleFlowStarted, ha, hae, hkv]

/-- Witness for the amended C5: an established pair survives a FlowStarted
event that pairs a fresh internal ID with a pending API flow. -/
theorem flow_started_mappings_never_reassigned_witness :
    (alookup "A" [("A", "ia")] = some "ia") ∧
    (("ia" : String) ≠ "") ∧
    (alookup "A" (handleFlowStarted [("A", "ia")] [("ia", "A")] ["A", "B"]
      [] "ib" "F" 4).fwdMap = some "ia") ∧
    (alookup "ia" (handleFlowStarted [("A", "ia")] [("ia", "A")] ["A", "B"]
      [] "ib" "F" 4).revMap = some "A") :=
  ⟨rfl, by decide,
    (flow_started_mappings_never_reassigned [("A", "ia")] [("ia", "A")]
      ["A", "B"] [] "ib" "F" 4).1 "A" "ia" rfl,
    (flow_started_mappings_never_reassigned [("A", "ia")] [("ia", "A")]
      ["A", "B"] [] "ib" "F" 4).2 "ia" "A" (by decide) rfl⟩

theorem firstResultField_result (sd : List (String × PyVal)) (v : PyVal)
    (h : alookup "result" sd = some v) (hn : v ≠ PyVal.vnone) :
    firstResultField sd = some (pyStr v) := by
  simp [firstResultField, resultFields, firstFieldAux, h, hn]

theorem firstResultField_output (sd : List (String × PyVal)) (v : PyVal)
    (h0 : fieldMissing sd "result") (h : alookup "output" sd = some v)
    (hn : v ≠ PyVal.vnone) : firstResultField sd = some (pyStr v) := by
  rcases h0 with h0 | h0 <;>
    simp [firstResultField, resultFields, firstFieldAux, h0, h, hn]

theorem firstResultField_outputs (sd : List (String × PyVal)) (v : PyVal)
    (h0 : fieldMissing sd "result") (h1 : fieldMissing sd "output")
    (h : alookup "outputs" sd = some v) (hn : v ≠ PyVal.vnone) :
    firstResultField sd = some (pyStr v) := by
  rcases h0 with h0 | h0 <;> rcases h1 with h1 | h1 <;>
    simp [firstResultField, resultFields, firstFieldAux, h0, h1, h, hn]

theorem firstResultField_final (sd : List (String × PyVal)) (v : PyVal)
    (h0 : fieldMissing sd "result") (h1 : fieldMissing sd "output")
    (h2 : fieldMissing sd "outputs") (h : alookup "final_result" sd = some v)
    (hn : v ≠ PyVal.vnone) : firstResultField sd = some (pyStr v) := by
  rcases h0 with h0 | h0 <;> rcases h1 with h1 | h1 <;> rcases h2 with h2 | h2 <;>
    simp [firstResultField, resultFields, firstFieldAux, h0, h1, h2, h, hn]

theorem firstResultField_none (sd : List (String × PyVal))
    (h0 : fieldMissing sd "result") (h1 : fieldMissing sd "output")
    (h2 : fieldMissing sd "outputs") (h3 : fieldMissing sd "final_result") :
    firstResultField sd = Option.none := by
  rcases h0 with h0 | h0 <;> rcases h1 with h1 | h1 <;> rcases h2 with h2 | h2 <;>
    rcases h3 with h3 | h3 <;>
    simp [firstResultField, resultFields, firstFieldAux, h0, h1, h2, h3]

theorem jsonDumps_ne_empty (sd : List (String × PyVal)) : jsonDumps sd ≠ "" := by
  intro h
  have hlen := congrArg String.length h
  simp [jsonDumps, String.length_append] at hlen
  exact absurd hlen.1.1 (by decide)

theorem flowFinishedOutput_of_truthy
    (sourceState : Option (List (String × PyVal))) (eventResult : PyVal)
    (s : String) (h : sourceExtract sourceState = some s) (hne : s ≠ "") :
    flowFinishedOutput sourceState eventResult = s := by
  simp [flowFinishedOutput, h, pyFalsyOpt, hne]

theorem handleFlowFinished_lookup (revMap : List (String × String))
    (states : List (String × FlowState)) (flowId : String)
    (sourceState : Option (List (String × PyVal))) (eventResult : PyVal)
    (now : Nat) (st : FlowState)
    (hrec : alookup (resolveFlowId revMap flowId) states = some st) :
    ∃ r, alookup (resolveFlowId revMap flowId)
        (handleFlowFinished revMap states flowId sourceState eventResult
          now).states = some r ∧
      r.outputs = some (flowFinishedOutput sourceState eventResult) ∧
      r.status = "completed" := by
  refine ⟨{ st with status := "completed", timestamp := now, outputs := some (flowFinishedOutput sourceState eventResult) }, ?_, rfl, rfl⟩
  simp [handleFlowFinished, hrec, alookup_ainsert]

/-- Claim C6: when the flow-finished handler runs on an existing record and
a source state dict is available, the attached output is obtained by trying
the state fields `result`, `output`, `outputs`, `final_result` in exactly
that priority order (first present non-None value wins), and only when none
of them yields a value is the whole state dict serialized with identity and
underscore-prefixed fields excluded. -/
theorem flow_finished_output_priority (revMap : List (String × String))
    (states : List (String × FlowState)) (flowId : String)
    (sd : List (String × PyVal)) (eventResult : PyVal) (now : Nat)
    (st : FlowState)
    (hrec : alookup (resolveFlowId revMap flowId) states = some st) :
    (∀ v, alookup "result" sd = some v → v ≠ PyVal.vnone → pyStr v ≠ "" →
      ∃ r, alookup (resolveFlowId revMap flowId)
          (handleFlowFinished revMap states flowId (some sd) eventResult
            now).states = some r ∧ r.outputs = some (pyStr v)) ∧
    (∀ v, fieldMissing sd "result" → alookup "output" sd = some v →
      v ≠ PyVal.vnone → pyStr v ≠ "" →
      ∃ r, alookup (resolveFlowId revMap flowId)
          (handleFlowFinished revMap states flowId (some sd) eventResult
            now).states = some r ∧ r.outputs = some (pyStr v)) ∧
    (∀ v, fieldMissing sd "result" → fieldMissing sd "output" →
      alookup "outputs" sd = some v → v ≠ PyVal.vnone → pyStr v ≠ "" →
      ∃ r, alookup (resolveFlowId revMap flowId)
          (handleFlowFinished revMap states flowId (some sd) eventResult
            now).states = some r ∧ r.outputs = some (pyStr v)) ∧
    (∀ v, fieldMissing sd "result" → fieldMissing sd "output" →
      fieldMissing sd "outputs" → alookup "final_result" sd = some v →
      v ≠ PyVal.vnone → pyStr v ≠ "" →
      ∃ r, alookup (resolveFlowId revMap flowId)
          (handleFlowFinished revMap states flowId (some sd) eventResult
            now).states = some r ∧ r.outputs = some (pyStr v)) ∧
    (fieldMissing sd "result" → fieldMissing sd "output" →
      fieldMissing sd "outputs" → fieldMissing sd "final_result" →
      filteredStateDict sd ≠ [] →
      ∃ r, alookup (resolveFlowId revMap flowId)
          (handleFlowFinished revMap states flowId (some sd) eventResult
            now).states = some r ∧
        r.outputs = some (jsonDumps (filteredStateDict sd))) := by
  have hbase := handleFlowFinished_lookup revMap states flowId (some sd)
    eventResult now st hrec
  refine ⟨?_, ?_, ?_, ?_, ?_⟩
  · intro v h hn hne
    obtain ⟨r, hr, hro, _⟩ := hbase
    refine ⟨r, hr, ?_⟩
    rw [hro, flowFinishedOutput_of_truthy _ _ _ ?_ hne]
    simp [sourceExtract, extractFromState, firstResultField_result sd v h hn,
      pyFalsyOpt, hne]
  · intro v h0 h hn hne
    obtain ⟨r, hr, hro, _⟩ := hbase
    refine ⟨r, hr, ?_⟩
    rw [hro, flowFinishedOutput_of_truthy _ _ _ ?_ hne]
    simp [sourceExtract, extractFromState, firstResultField_output sd v h0 h hn,
      pyFalsyOpt, hne]
  · intro v h0 h1 h hn hne
    obtain ⟨r, hr, hro, _⟩ := hbase
    refine ⟨r, hr, ?_⟩
    rw [hro, flowFinishedOutput_of_truthy _ _ _ ?_ hne]
    simp [sourceExtract, extractFromState,
      firstResultField_outputs sd v h0 h1 h hn, pyFalsyOpt, hne]
  · intro v h0 h1 h2 h hn hne
    obtain ⟨r, hr, hro, _⟩ := hbase
    refine ⟨r, hr, ?_⟩
    rw [hro, flowFinishedOutput_of_truthy _ _ _ ?_ hne]
    simp [sourceExtract, extractFromState,
      firstResultField_final sd v h0 h1 h2 h hn, pyFalsyOpt, hne]
  · intro h0 h1 h2 h3 hrd
    obtain ⟨r, hr, hro, _⟩ := hbase
    refine ⟨r, hr, ?_⟩
    have hext : sourceExtract (some sd) = some (jsonDumps (filteredStateDict sd)) := by
      have hf := firstResultField_none sd h0 h1 h2 h3
      have hrd' : (filteredStateDict sd).isEmpty = false := by
        simpa [List.isEmpty_iff] using hrd
      simp [sourceExtract, extractFromState, hf, pyFalsyOpt, hrd']
    rw [hro, flowFinishedOutput_of_truthy _ _ _ hext (jsonDumps_ne_empty _)]

/-- Witness for C6: a state dict whose `result` is None but whose `output`
field carries a string. -/
theorem flow_finished_output_priority_witness :
    (alookup "f" [("f", witEmptyFlowState)] = some witEmptyFlowState) ∧
    (fieldMissing [("result", PyVal.vnone), ("output", PyVal.vstr "outv")]
      "result") ∧
    (∃ r, alookup (resolveFlowId [] "f")
        (handleFlowFinished [] [("f", witEmptyFlowState)] "f"
          (some [("result", PyVal.vnone), ("output", PyVal.vstr "outv")])
          PyVal.vnone 3).states = some r ∧
      r.outputs = some (pyStr (PyVal.vstr "outv"))) :=
  ⟨rfl, Or.inr rfl,
    (flow_finished_output_priority [] [("f", witEmptyFlowState)] "f"
      [("result", PyVal.vnone), ("output", PyVal.vstr "outv")] PyVal.vnone 3
      witEmptyFlowState rfl).2.1 (PyVal.vstr "outv") (Or.inr rfl) rfl
      (by decide) (by decide)⟩

/-- Claim C10: after the flow-finished handler runs on an existing record,
the snapshot's outputs field is always set to some string; and when neither
the source state (priority fields or whole-state serialization) nor the
event's result yields anything, that string is exactly
"Flow completed successfully (no result data available)". -/
theorem flow_finished_outputs_always_set (revMap : List (String × String))
    (states : List (String × FlowState)) (flowId : String)
    (sourceState : Option (List (String × PyVal))) (eventResult : PyVal)
    (now : Nat) (st : FlowState)
    (hrec : alookup (resolveFlowId revMap flowId) states = some st) :
    (∃ r s, alookup (resolveFlowId revMap flowId)
        (handleFlowFinished revMap states flowId sourceState eventResult
          now).states = some r ∧ r.outputs = some s) ∧
    (pyFalsyOpt (sourceExtract sourceState) = true →
      (eventResult = PyVal.vnone ∨ pyStr eventResult = "") →
      ∃ r, alookup (resolveFlowId revMap flowId)
          (handleFlowFinished revMap states flowId sourceState eventResult
            now).states = some r ∧
        r.outputs = some flowCompletedDefaultMsg) := by
  obtain ⟨r, hr, hro, _⟩ := handleFlowFinished_lookup revMap states flowId
    sourceState eventResult now st hrec
  constructor
  · exact ⟨r, _, hr, hro⟩
  · intro hfal her
    refine ⟨r, hr, ?_⟩
    rw [hro]
    have hout : flowFinishedOutput sourceState eventResult
        = flowCompletedDefaultMsg := by
      rcases hA : sourceExtract sourceState with _ | s
      · by_cases hv : eventResult = PyVal.vnone
        · subst hv
          simp [flowFinishedOutput, hA, pyFalsyOpt]
        · have hps : pyStr eventResult = "" := by
            rcases her with her | her
            · exact absurd her hv
            · exact her
          simp [flowFinishedOutput, hA, hv, hps, pyFalsyOpt]
      · rw [hA] at hfal
        have hs : s = "" := by simpa [pyFalsyOpt] using hfal
        subst hs
        by_cases hv : eventResult = PyVal.vnone
        · subst hv
          simp [flowFinishedOutput, hA, pyFalsyOpt]
        · have hps : pyStr eventResult = "" := by
            rcases her with her | her
            · exact absurd her hv
            · exact her
          simp [flowFinishedOutput, hA, hv, hps, pyFalsyOpt]
    rw [hout]

/-- Witness for C10: no source state and a None event result yield the
default message. -/
theorem flow_finished_outputs_always_set_witness :
    (alookup "f" [("f", witEmptyFlowState)] = some witEmptyFlowState) ∧
    (pyFalsyOpt (sourceExtract Option.none) = true) ∧
    (∃ r, alookup (resolveFlowId [] "f")
        (handleFlowFinished [] [("f", witEmptyFlowState)] "f" Option.none
          PyVal.vnone 4).states = some r ∧
      r.outputs = some flowCompletedDefaultMsg) :=
  ⟨rfl, rfl,
    (flow_finished_outputs_always_set [] [("f", witEmptyFlowState)] "f"
      Option.none PyVal.vnone 4 witEmptyFlowState rfl).2 rfl (Or.inl rfl)⟩

/-- Claim C7: on a FlowStarted event whose internal flow ID has no reverse
mapping, when no active API-issued flow without a forward mapping is pending,
the internal ID is used as its own canonical ID: the fresh running record is
stored and broadcast under the internal ID, both mapping dicts are left
unchanged, and the handler completes normally (it is total — no exception
path exists). -/
theorem flow_started_unmapped_uses_internal_id
    (fwdMap revMap : List (String × String)) (activeFlows : List String)
    (states : List (String × FlowState)) (flowId flowName : String)
    (now : Nat)
    (hrev : alookup flowId revMap = Option.none)
    (hfind : activeFlows.find? (fun apiId => (alookup apiId fwdMap).isNone)
      = Option.none) :
    (handleFlowStarted fwdMap revMap activeFlows states flowId flowName
      now).fwdMap = fwdMap ∧
    (handleFlowStarted fwdMap revMap activeFlows states flowId flowName
      now).revMap = revMap ∧
    alookup flowId (handleFlowStarted fwdMap revMap activeFlows states
      flowId flowName now).states
      = some { id := flowId, name := flowName, status := "running"
               steps := [], outputs := Option.none, timestamp := now } ∧
    (handleFlowStarted fwdMap revMap activeFlows states flowId flowName
      now).broadcasts
      = [(flowId, { id := flowId, name := flowName, status := "running"
                    steps := [], outputs := Option.none, timestamp := now })] := by
  refine ⟨?_, ?_, ?_, ?_⟩ <;>
    simp [handleFlowStarted, hrev, hfind, alookup_ainsert]

/-- Witness for C7: two mapped pairs exist but the event's internal ID is a
fresh one and every active flow is already mapped. -/
theorem flow_started_unmapped_uses_internal_id_witness :
    (alookup "i2" [("i1", "A")] = Option.none) ∧
    (["A"].find? (fun apiId => (alookup apiId [("A", "i1")]).isNone)
      = Option.none) ∧
    ((handleFlowStarted [("A", "i1")] [("i1", "A")] ["A"] [] "i2" "F" 6).fwdMap
      = [("A", "i1")] ∧
     (handleFlowStarted [("A", "i1")] [("i1", "A")] ["A"] [] "i2" "F" 6).revMap
      = [("i1", "A")] ∧
     alookup "i2" (handleFlowStarted [("A", "i1")] [("i1", "A")] ["A"] []
       "i2" "F" 6).states
      = some { id := "i2", name := "F", status := "running", steps := []
               outputs := Option.none, timestamp := 6 } ∧
     (handleFlowStarted [("A", "i1")] [("i1", "A")] ["A"] [] "i2" "F"
       6).broadcasts
      = [("i2", { id := "i2", name := "F", status := "running", steps := []
                  outputs := Option.none, timestamp := 6 })]) :=
  ⟨rfl, rfl,
    flow_started_unmapped_uses_internal_id [("A", "i1")] [("i1", "A")] ["A"]
      [] "i2" "F" 6 rfl rfl⟩

/-- Claim C8: for a task described "Research the competitive landscape" and
two agents declared in the order Research Analyst, Content Writer, neither
pre-assigned, the task-to-agent scoring heuristic of
`on_crew_kickoff_started` assigns the task to the Research Analyst agent
(shared word "research" plus the research keyword bonus give score 4 against
0). -/
theorem research_task_assigned_to_research_analyst :
    assignAgentForTask
      [("Research Analyst", "agent_research"), ("Content Writer", "agent_writer")]
      "Research the competitive landscape" = some "agent_research" := by
  rfl

/-- Claim C9: the flow subscriber table invariant — every stored flow key
maps to a non-empty connection dict: registration preserves it,
unregistration preserves it, and unregistering the last remaining connection
of a flow removes that flow's key entirely (given dict keys are unique, as
Python guarantees). -/
theorem websocket_queue_registry_invariant
    (t : List (String × List (String × Nat))) (fid cid : String) (q : Nat) :
    (queueTableInv t → queueTableInv (registerWebsocketQueue t fid cid q)) ∧
    (queueTableInv t → queueTableInv (unregisterWebsocketQueue t fid cid)) ∧
    ((t.map Prod.fst).Nodup → alookup fid t = some [(cid, q)] →
      alookup fid (unregisterWebsocketQueue t fid cid) = Option.none) := by
  refine ⟨?_, ?_, ?_⟩
  · intro hinv p hp
    rcases mem_ainsert p fid _ t hp with h | h
    · rw [h]
      exact ainsert_ne_nil cid q _
    · exact hinv p h
  · intro hinv
    rcases ha : alookup fid t with _ | inner
    · simpa [unregisterWebsocketQueue, ha] using hinv
    · by_cases hc : (alookup cid inner).isSome
      · by_cases he : (aremove cid inner).isEmpty
        · have hgoal : unregisterWebsocketQueue t fid cid = aremove fid t := by
            simp [unregisterWebsocketQueue, ha, hc, he]
          rw [hgoal]
          intro p hp
          exact hinv p (mem_aremove p fid t hp)
        · have hgoal : unregisterWebsocketQueue t fid cid
              = ainsert fid (aremove cid inner) t := by
            simp [unregisterWebsocketQueue, ha, hc, he]
          rw [hgoal]
          intro p hp
          rcases mem_ainsert p fid _ t hp with h | h
          · rw [h]
            simpa [List.isEmpty_iff] using he
          · exact hinv p h
      · simpa [unregisterWebsocketQueue, ha, hc] using hinv
  · intro hnodup hfid
    have hc : (alookup cid [(cid, q)]).isSome := by simp [alookup]
    have he : (aremove cid [(cid, q)]).isEmpty := by simp [aremove]
    have hgoal : unregisterWebsocketQueue t fid cid = aremove fid t := by
      simp [unregisterWebsocketQueue, hfid, hc, he, alookup, aremove]
    rw [hgoal]
    exact alookup_aremove_self fid t hnodup

/-- Witness for C9 at a one-flow, one-connection table. -/
theorem websocket_queue_registry_invariant_witness :
    (queueTableInv [("f", [("c", 0)])]) ∧
    (queueTableInv (registerWebsocketQueue [("f", [("c", 0)])] "g" "d" 1)) ∧
    ((([("f", [("c", 0)])] : List (String × List (String × Nat))).map
        Prod.fst).Nodup) ∧
    (alookup "f" (unregisterWebsocketQueue [("f", [("c", 0)])] "f" "c")
      = Option.none) := by
  have h := websocket_queue_registry_invariant [("f", [("c", 0)])] "f" "c" 0
  have hg := websocket_queue_registry_invariant [("f", [("c", 0)])] "g" "d" 1
  have hinv : queueTableInv [("f", [("c", 0)])] := by
    intro p hp
    simp at hp
    rw [hp]
    simp
  exact ⟨hinv, hg.1 hinv, by simp, h.2.2 (by simp) rfl⟩

end CrewaiPlayground
